import Mathlib

/-!
Verification of the small-shell process/job-control core (`src/smallsh.c`).

The C program is shallowly embedded: the parser (`getCommand`), the process
launcher (`runCommand`), the job table (`saveProcess`, `exitShell`), the
asynchronous reaper (`childTerminates`) and the mode toggle
(`disableBackground`) become pure Lean functions over an explicit
`ShellState`.  Operating-system effects are represented by oracles: the
outcome of a spawned child is a `ChildResult` argument, the non-blocking
`waitpid(..., WNOHANG)` check of the reaper is a function from pid to
`Option ChildResult` (`none` = still running).  The POSIX wait-status
encoding (exit code in bits 8..15, signal number in the low 7 bits) and the
glibc `WEXITSTATUS` macro are embedded as `encodeStatus` / `wExitStatus`.
Pointer-level concerns of the C (the strtok'd buffer, the reused stack
buffer for `$$` substitution results) are modelled at the level of string
values.
-/

set_option maxRecDepth 8000

namespace Smallsh

/-- `MAX_PROCS` from smallsh.c. -/
def MAX_PROCS : Nat := 50

/-- `struct command`: args, optional input/output file, background flag. -/
structure Command where
  args : List String
  inputFile : Option String
  outputFile : Option String
  background : Bool
deriving DecidableEq

/-- `struct backProcess`: a background pid and its liveness flag. -/
structure JobRecord where
  backPID : Nat
  active : Bool
deriving DecidableEq

/-- The global shell state of smallsh.c: `forePID`, `backProcs`,
`exitStatus`, `backgroundDisabled`. -/
structure ShellState where
  forePID : Int
  backProcs : List (Option JobRecord)
  exitStatus : Nat
  backgroundDisabled : Bool
deriving DecidableEq

/-- The state at the top of `runShell`: all 50 slots empty, `forePID = -1`,
`exitStatus = 0`, background enabled. -/
def emptyTable : List (Option JobRecord) := List.replicate MAX_PROCS none

/-- Initial `ShellState` as set up by the globals and `runShell`'s loop. -/
def initState : ShellState :=
  { forePID := -1, backProcs := emptyTable, exitStatus := 0, backgroundDisabled := false }

/-! ## Wait-status encoding (POSIX / glibc, used via `waitpid` and
`WEXITSTATUS`) -/

/-- What a spawned child process eventually does. -/
inductive ChildResult where
  | exited (code : Nat)
  | signaled (sig : Nat)
deriving DecidableEq

/-- The raw integer wait status stored by `waitpid`: exit code `c` is
encoded as `(c mod 256) * 256`, termination by signal `n` as `n mod 128`
(the low 7 bits). -/
def encodeStatus : ChildResult → Nat
  | .exited c => (c % 256) * 256
  | .signaled n => n % 128

/-- glibc `WEXITSTATUS`: bits 8..15 of the raw status. -/
def wExitStatus (status : Nat) : Nat := (status / 256) % 256

/-! ## Tokenizer

`getCommand` splits the line with `strtok(command, " \n")`: runs of the
delimiters are skipped, and the resulting tokens are non-empty. -/

/-- Is a character one of strtok's delimiters `" \n"`. -/
def isDelim (c : Char) : Bool := c == ' ' || c == '\n'

/-- Accumulating tokenizer over the characters of the line; `cur` holds the
current token reversed. -/
def tokenizeAux : List Char → List Char → List (List Char)
  | [], cur => if cur.isEmpty then [] else [cur.reverse]
  | c :: rest, cur =>
    if isDelim c then
      if cur.isEmpty then tokenizeAux rest [] else cur.reverse :: tokenizeAux rest []
    else
      tokenizeAux rest (c :: cur)

/-- The strtok token sequence of one input line. -/
def tokens (line : String) : List String :=
  (tokenizeAux line.data []).map String.mk

/-! ## `$$` substitution (lines 209-229 of smallsh.c)

`strstr(token, "$$")` finds the first occurrence; the code copies the
characters before it, the decimal pid, and the characters after it.  (The
`pre == NULL` / `post == NULL` tests in the C compare array names against
NULL and are always false, so the final `sprintf(res, "%s%d%s", ...)`
branch is the one that runs; it degenerates correctly when pre/post are
empty.) -/

/-- The comment test of lines 188-190: `regexec` of the pattern `"^#"`
matches exactly when the token's first character is `#`. -/
def isComment (t : String) : Bool :=
  match t.data with
  | [] => false
  | c :: _ => c == '#'

/-- `strstr(token, "$$") != NULL`: does the character list contain two
consecutive `$`. -/
def hasDD : List Char → Bool
  | [] => false
  | [_] => false
  | c1 :: c2 :: rest => (c1 == '$' && c2 == '$') || hasDD (c2 :: rest)

/-- Replace the first occurrence of `$$` with the decimal form of `pid`,
leaving everything else (including later `$$`s) unchanged. -/
def substFirst (pid : Nat) : List Char → List Char
  | [] => []
  | [c] => [c]
  | c1 :: c2 :: rest =>
    if c1 == '$' && c2 == '$' then (toString pid).data ++ rest
    else c1 :: substFirst pid (c2 :: rest)

/-! ## Parser (`getCommand`) -/

/-- The loop state of `getCommand`: the command built so far, the
`outRedirect` / `inRedirect` pending-path flags, and whether the comment
`break` has fired. -/
structure ParseState where
  cmd : Command
  outRedirect : Bool
  inRedirect : Bool
  stopped : Bool
deriving DecidableEq

/-- Parser state at the top of `getCommand`. -/
def initParse : ParseState :=
  { cmd := { args := [], inputFile := none, outputFile := none, background := false }
    outRedirect := false, inRedirect := false, stopped := false }

/-- One iteration of `getCommand`'s token loop.  The branch order is the
source's: pending output path, pending input path, comment (`regexec` of
`"^#"`, i.e. the token starts with `#`), `"<"`, `">"`, `"&"` (guarded by
`backgroundDisabled`), a token containing `$$`, plain argument. -/
def stepToken (disabled : Bool) (pid : Nat) (st : ParseState) (token : String) : ParseState :=
  if st.stopped then st
  else if st.outRedirect then
    { st with cmd := { st.cmd with outputFile := some token }, outRedirect := false }
  else if st.inRedirect then
    { st with cmd := { st.cmd with inputFile := some token }, inRedirect := false }
  else if isComment token then
    { st with stopped := true }
  else if token == "<" then
    { st with inRedirect := true }
  else if token == ">" then
    { st with outRedirect := true }
  else if token == "&" then
    if disabled then st else { st with cmd := { st.cmd with background := true } }
  else if hasDD token.data then
    { st with cmd := { st.cmd with args := st.cmd.args ++ [String.mk (substFirst pid token.data)] } }
  else
    { st with cmd := { st.cmd with args := st.cmd.args ++ [token] } }

/-- `getCommand`: parse one line into a `Command`, reading the
`backgroundDisabled` flag and the shell's own pid. -/
def getCommand (disabled : Bool) (pid : Nat) (line : String) : Command :=
  ((tokens line).foldl (stepToken disabled pid) initParse).cmd

/-! ## Job table (`saveProcess`, lines 471-486) -/

/-- `saveProcess`: put a new active record into the first empty slot.
The C scans unboundedly past the array when no slot is free (undefined
behaviour); that case is modelled as `none`. -/
def saveProcess (pid : Nat) : List (Option JobRecord) → Option (List (Option JobRecord))
  | [] => none
  | none :: rest => some (some { backPID := pid, active := true } :: rest)
  | some r :: rest => (saveProcess pid rest).map (fun t => some r :: t)

/-- Register a whole list of background pids in order. -/
def registerAll : List Nat → List (Option JobRecord) → Option (List (Option JobRecord))
  | [], t => some t
  | p :: ps, t => (saveProcess p t).bind (registerAll ps)

/-- Number of empty slots. -/
def countNone : List (Option JobRecord) → Nat
  | [] => 0
  | none :: rest => countNone rest + 1
  | some _ :: rest => countNone rest

/-- The pids of the occupied slots, in slot order. -/
def occupiedPids : List (Option JobRecord) → List Nat
  | [] => []
  | none :: rest => occupiedPids rest
  | some r :: rest => r.backPID :: occupiedPids rest

/-! ## Process launcher (`runCommand`, lines 307-392)

The child-side work (redirection inside the child, `execvp`, the child's
error exits) determines only the child's eventual `ChildResult`, which is
an oracle argument here.  The parent side is modelled exactly: register +
announce for background, record `forePID` and wait for foreground, restore
stdin/stdout only when the corresponding file was requested, and return
`WEXITSTATUS(exitStatus)` where `exitStatus` is the global raw status. -/

/-- What one `runCommand` call does in the parent: the new shell state, the
returned value (`WEXITSTATUS` of the global status), the lines printed, and
whether the saved stdin/stdout descriptors were dup2'd back. -/
structure RunResult where
  state : ShellState
  ret : Nat
  output : List String
  restoredStdin : Bool
  restoredStdout : Bool
deriving DecidableEq

/-- `runCommand`.  `spawnpid` is the pid `fork` returned to the parent and
`childRes` what the child eventually does.  `none` models the job-table
overflow (undefined behaviour in the C). -/
def runCommand (st : ShellState) (cmd : Command) (spawnpid : Nat) (childRes : ChildResult) :
    Option RunResult :=
  if cmd.background then
    match saveProcess spawnpid st.backProcs with
    | none => none
    | some table =>
      some
        { state := { st with backProcs := table }
          ret := wExitStatus st.exitStatus
          output := ["background pid is " ++ toString spawnpid]
          restoredStdin := cmd.inputFile.isSome
          restoredStdout := cmd.outputFile.isSome }
  else
    some
      { state := { st with forePID := (spawnpid : Int), exitStatus := encodeStatus childRes }
        ret := wExitStatus (encodeStatus childRes)
        output := []
        restoredStdin := cmd.inputFile.isSome
        restoredStdout := cmd.outputFile.isSome }

/-! ## Asynchronous reaper (`childTerminates`, lines 418-439) -/

/-- The notification line printed for a reaped pid with captured raw status
`s`: lines 427-431 classify on the raw `exitStatus` value, `0` and `1`
meaning exit code and everything else a signal number. -/
def notifLine (pid : Nat) (s : Nat) : String :=
  if s ≠ 0 ∧ s ≠ 1 then
    "background pid " ++ toString pid ++ " is done: terminated by signal " ++ toString s
  else
    "background pid " ++ toString pid ++ " is done: exit value " ++ toString s

/-- One slot of the reaper's scan.  `term` is the `waitpid(..., WNOHANG)`
oracle (`none` = still running, in which case the global status is not
written).  Returns the slot afterwards, the global status afterwards, and
the lines printed. -/
def reapSlot (term : Nat → Option ChildResult) (status : Nat) :
    Option JobRecord → Option JobRecord × Nat × List String
  | none => (none, status, [])
  | some r =>
    match term r.backPID with
    | none => (some r, status, [])
    | some res =>
      let s := encodeStatus res
      (none, s, [notifLine r.backPID s])

/-- `childTerminates`: scan every slot in order, threading the global
`exitStatus` through the `waitpid` calls. -/
def childTerminates (term : Nat → Option ChildResult) :
    List (Option JobRecord) → Nat → List (Option JobRecord) × Nat × List String
  | [], status => ([], status, [])
  | slot :: rest, status =>
    let r1 := reapSlot term status slot
    let r2 := childTerminates term rest r1.2.1
    (r1.1 :: r2.1, r2.2.1, r1.2.2 ++ r2.2.2)

/-! ## `exitShell` (lines 246-256) -/

/-- Walk the job table as `exitShell` does: collect the pid of every
occupied slot (each gets `kill(pid, SIGKILL)`), free it and set it to NULL.
Returns the kill list and the table afterwards. -/
def exitShellTable : List (Option JobRecord) → List Nat × List (Option JobRecord)
  | [] => ([], [])
  | none :: rest =>
    let r := exitShellTable rest
    (r.1, none :: r.2)
  | some j :: rest =>
    let r := exitShellTable rest
    (j.backPID :: r.1, none :: r.2)

/-- The observable outcome of `exitShell`: pids killed, the table after
freeing, and the process exit code (`exit(EXIT_SUCCESS)`). -/
structure ExitResult where
  killed : List Nat
  table : List (Option JobRecord)
  exitCode : Nat
deriving DecidableEq

/-- `exitShell`. -/
def exitShell (st : ShellState) : ExitResult :=
  let r := exitShellTable st.backProcs
  { killed := r.1, table := r.2, exitCode := 0 }

/-! ## Mode toggle (`disableBackground`, lines 450-460) -/

/-- `disableBackground`: flip the flag, printing exactly one of the two
fixed lines chosen by the old (equivalently, the new) state. -/
def disableBackground (st : ShellState) : ShellState × String :=
  if st.backgroundDisabled then
    ({ st with backgroundDisabled := false }, "Exiting foreground-only mode")
  else
    ({ st with backgroundDisabled := true }, "Entering foreground-only mode (& is now ignored)")

/-- The `backgroundDisabled` flag after `n` toggle signals starting from
flag value `b`. -/
def iterFlag : Nat → Bool → Bool
  | 0, b => b
  | n + 1, b => !(iterFlag n b)

/-! ## `status` built-in and the shell loop (`runShell`, lines 120-169) -/

/-- `printStatus`: the line the `status` built-in prints. -/
def statusLine (st : ShellState) : String := "exit value " ++ toString st.exitStatus

/-- Outcome of one iteration of `runShell`'s loop. -/
inductive StepResult where
  | next (st : ShellState) (out : List String)
  | exited (killed : List Nat) (code : Nat) (out : List String)
  | overflow
deriving DecidableEq

/-- One iteration of `runShell`'s while loop on one input line: parse, then
dispatch on `args[0]` (`exit`, `cd`, `status`, external).  An empty `args`
short-circuits (`continue`).  For an external command the loop stores
`runCommand`'s return value into the global `exitStatus`.  `spawnpid` and
`childRes` are the fork/child oracles for the external case. -/
def shellStep (shellPid : Nat) (st : ShellState) (line : String) (spawnpid : Nat)
    (childRes : ChildResult) : StepResult :=
  let cmd := getCommand st.backgroundDisabled shellPid line
  match cmd.args with
  | [] => .next st []
  | a0 :: _ =>
    if a0 == "exit" then
      .exited (exitShellTable st.backProcs).1 0 []
    else if a0 == "cd" then
      .next st []
    else if a0 == "status" then
      .next st [statusLine st]
    else
      match runCommand st cmd spawnpid childRes with
      | none => .overflow
      | some r => .next { r.state with exitStatus := r.ret } r.output

/-! ## Characterizations used in theorem statements -/

/-- Replacement as the claim words it, replacing EVERY occurrence of `$$`;
written only to compare against the source's first-occurrence `substFirst`. -/
def substAllSpec (pid : Nat) : List Char → List Char
  | [] => []
  | [c] => [c]
  | c1 :: c2 :: rest =>
    if c1 == '$' && c2 == '$' then (toString pid).data ++ substAllSpec pid rest
    else c1 :: substAllSpec pid (c2 :: rest)

/-- What one reaper pass leaves in a slot: occupied slots whose process has
terminated become empty, still-running ones are untouched. -/
def reapedSlot (term : Nat → Option ChildResult) : Option JobRecord → Option JobRecord
  | none => none
  | some r => if (term r.backPID).isSome then none else some r

/-- The notification (if any) one reaper pass emits for a slot. -/
def notifOf (term : Nat → Option ChildResult) : Option JobRecord → Option String
  | none => none
  | some r => (term r.backPID).map (fun res => notifLine r.backPID (encodeStatus res))



/-! ## Parser lemmas -/

theorem stepToken_eq_of_stopped (d : Bool) (pid : Nat) (st : ParseState) (tok : String)
    (h : st.stopped = true) : stepToken d pid st tok = st := by
  unfold stepToken
  rw [h]
  simp

theorem foldl_eq_of_stopped (d : Bool) (pid : Nat) (toks : List String) (st : ParseState)
    (h : st.stopped = true) : toks.foldl (stepToken d pid) st = st := by
  induction toks with
  | nil => rfl
  | cons t ts ih => rw [List.foldl_cons, stepToken_eq_of_stopped d pid st t h, ih]

theorem stepToken_background_of_disabled (pid : Nat) (st : ParseState) (tok : String) :
    (stepToken true pid st tok).cmd.background = st.cmd.background := by
  unfold stepToken
  repeat' split
  all_goals simp_all

theorem foldl_background_of_disabled (pid : Nat) (toks : List String) (st : ParseState) :
    (toks.foldl (stepToken true pid) st).cmd.background = st.cmd.background := by
  induction toks generalizing st with
  | nil => rfl
  | cons t ts ih => rw [List.foldl_cons, ih, stepToken_background_of_disabled]

theorem getCommand_background_of_disabled (pid : Nat) (line : String) :
    (getCommand true pid line).background = false := by
  unfold getCommand
  rw [foldl_background_of_disabled]
  rfl

theorem stepToken_background_of_ne_amp (d : Bool) (pid : Nat) (st : ParseState) (tok : String)
    (h : tok ≠ "&") : (stepToken d pid st tok).cmd.background = st.cmd.background := by
  unfold stepToken
  repeat' split
  all_goals simp_all

theorem foldl_background_of_not_mem (d : Bool) (pid : Nat) (toks : List String) (st : ParseState)
    (h : "&" ∉ toks) : (toks.foldl (stepToken d pid) st).cmd.background = st.cmd.background := by
  induction toks generalizing st with
  | nil => rfl
  | cons t ts ih =>
    have hts : "&" ∉ ts := fun hm => h (List.mem_cons_of_mem t hm)
    have ht : t ≠ "&" := by
      intro he
      apply h
      rw [he]
      exact List.mem_cons_self _ _
    rw [List.foldl_cons, ih _ hts, stepToken_background_of_ne_amp d pid st t ht]

theorem iterFlag_even (n : Nat) (b : Bool) : iterFlag (2 * n) b = b := by
  induction n with
  | zero => rfl
  | succ k ih =>
    have h2 : 2 * (k + 1) = 2 * k + 1 + 1 := by omega
    rw [h2]
    simp [iterFlag, ih]

theorem iterFlag_odd (n : Nat) (b : Bool) : iterFlag (2 * n + 1) b = !b := by
  simp [iterFlag, iterFlag_even]

/-! ## Job-table lemmas -/

theorem exitShellTable_eq (t : List (Option JobRecord)) :
    exitShellTable t = (occupiedPids t, List.replicate t.length none) := by
  induction t with
  | nil => rfl
  | cons s rest ih => cases s <;> simp [exitShellTable, occupiedPids, ih, List.replicate_succ]

/-- Claim C6: parsing `sort < in.txt > out.txt &` with background enabled
yields input file `in.txt`, output file `out.txt`, background true, and the
single argument `sort`. -/
theorem claim_C6 (pid : Nat) :
    getCommand false pid "sort < in.txt > out.txt &" =
      { args := ["sort"], inputFile := some "in.txt", outputFile := some "out.txt",
        background := true } := rfl

/-- Claim C8: `exitShell` kills every tracked background pid, frees and
empties every occupied slot, and exits the shell process with code 0. -/
theorem claim_C8 (st : ShellState) :
    (exitShell st).killed = occupiedPids st.backProcs ∧
    (exitShell st).table = List.replicate st.backProcs.length none ∧
    (exitShell st).exitCode = 0 := by
  unfold exitShell
  rw [exitShellTable_eq]
  exact ⟨rfl, rfl, rfl⟩

/-- Claim C7: each toggle signal flips `backgroundDisabled` and prints
exactly the one fixed line matching the new state; after an odd number of
toggles from startup every `&` is ignored (background=false), and after an
even number the parser behaves exactly as at startup (two flips are the
identity on the flag). -/
theorem claim_C7 :
    (∀ st : ShellState,
      (disableBackground st).1 = { st with backgroundDisabled := !st.backgroundDisabled }) ∧
    (∀ st : ShellState,
      (disableBackground st).2 =
        if (disableBackground st).1.backgroundDisabled then
          "Entering foreground-only mode (& is now ignored)"
        else "Exiting foreground-only mode") ∧
    (∀ st : ShellState,
      (disableBackground (disableBackground st).1).1.backgroundDisabled =
        st.backgroundDisabled) ∧
    (∀ (n pid : Nat) (line : String),
      (getCommand (iterFlag (2 * n + 1) false) pid line).background = false) ∧
    (∀ (n pid : Nat) (line : String),
      getCommand (iterFlag (2 * n) false) pid line = getCommand false pid line) := by
  refine ⟨?_, ?_, ?_, ?_, ?_⟩
  · intro st
    unfold disableBackground
    cases h : st.backgroundDisabled <;> simp [h]
  · intro st
    unfold disableBackground
    cases h : st.backgroundDisabled <;> simp [h]
  · intro st
    unfold disableBackground
    cases h : st.backgroundDisabled <;> simp [h]
  · intro n pid line
    rw [iterFlag_odd]
    exact getCommand_background_of_disabled pid line
  · intro n pid line
    rw [iterFlag_even]

/-- Claim C9: a line with no tokens (all whitespace) or whose first token
starts with `#` short-circuits before dispatch: no built-in runs, no
process is spawned, the shell state is unchanged and nothing is printed. -/
theorem claim_C9 (shellPid : Nat) (st : ShellState) (line : String) (spawnpid : Nat)
    (res : ChildResult)
    (h : tokens line = [] ∨ ∃ t ts, tokens line = t :: ts ∧ isComment t = true) :
    (getCommand st.backgroundDisabled shellPid line).args = [] ∧
    shellStep shellPid st line spawnpid res = .next st [] := by
  rcases h with h | ⟨t, ts, hline, hc⟩
  · constructor
    · unfold getCommand
      rw [h]
      rfl
    · unfold shellStep getCommand
      rw [h]
      rfl
  · have hstop : (stepToken st.backgroundDisabled shellPid initParse t) =
        { initParse with stopped := true } := by
      unfold stepToken initParse
      simp [hc]
    constructor
    · unfold getCommand
      rw [hline, List.foldl_cons, hstop, foldl_eq_of_stopped _ _ _ _ rfl]
      rfl
    · unfold shellStep getCommand
      rw [hline, List.foldl_cons, hstop, foldl_eq_of_stopped _ _ _ _ rfl]
      rfl

/-- Claim C9 witness at concrete inputs: an all-whitespace line and a
comment-first line both parse to zero args and are no-ops on the shell
state. -/
theorem claim_C9_witness :
    shellStep 1 initState "   " 2 (.exited 0) = .next initState [] ∧
    shellStep 1 initState "# ls -la" 2 (.exited 0) = .next initState [] :=
  ⟨(claim_C9 1 initState "   " 2 (.exited 0) (Or.inl rfl)).2,
   (claim_C9 1 initState "# ls -la" 2 (.exited 0)
     (Or.inr ⟨"#", ["ls", "-la"], rfl, rfl⟩)).2⟩

/-- Claim C10: a pending redirection path is consumed before every other
token classification: with `outRedirect` set the token becomes the output
path no matter what it is (even when `inRedirect` is also set — output is
served first), with only `inRedirect` set it becomes the input path; in
both cases args, background and the comment stop are untouched and the
token is stored verbatim (no `$$` substitution).  The flags are set by an
operator-position `<` / `>`. -/
theorem claim_C10 (disabled : Bool) (pid : Nat) (st : ParseState) (tok : String)
    (hstop : st.stopped = false) :
    (st.outRedirect = true →
      stepToken disabled pid st tok =
        { st with cmd := { st.cmd with outputFile := some tok }, outRedirect := false }) ∧
    (st.outRedirect = false → st.inRedirect = true →
      stepToken disabled pid st tok =
        { st with cmd := { st.cmd with inputFile := some tok }, inRedirect := false }) ∧
    (st.outRedirect = false → st.inRedirect = false →
      stepToken disabled pid st "<" = { st with inRedirect := true }) ∧
    (st.outRedirect = false → st.inRedirect = false →
      stepToken disabled pid st ">" = { st with outRedirect := true }) := by
  refine ⟨?_, ?_, ?_, ?_⟩
  · intro hout
    unfold stepToken
    rw [hstop, hout]
    simp
  · intro hout hin
    unfold stepToken
    rw [hstop, hout, hin]
    simp
  · intro hout hin
    unfold stepToken
    rw [hstop, hout, hin]
    simp [isComment]
  · intro hout hin
    unfold stepToken
    rw [hstop, hout, hin]
    simp [isComment]

/-- Claim C10 witness: with both redirection expectations pending, a token
that looks like a comment and contains `$$` is still consumed, verbatim, as
the OUTPUT path. -/
theorem claim_C10_witness :
    stepToken false 1
        { cmd := { args := [], inputFile := none, outputFile := none, background := false },
          outRedirect := true, inRedirect := true, stopped := false } "#$$&" =
      { cmd := { args := [], inputFile := none, outputFile := some "#$$&", background := false },
        outRedirect := false, inRedirect := true, stopped := false } :=
  (claim_C10 false 1
    { cmd := { args := [], inputFile := none, outputFile := none, background := false },
      outRedirect := true, inRedirect := true, stopped := false } "#$$&" rfl).1 rfl


/-! ## Claim C4 (corrected): `&` need not be the last token -/

/-- Claim C4 counterexample: on the line `a & b` (background enabled) the
parser sets `background = true` although the `&` token is not the last
token of the line, refuting "background=true only if a trailing `&` token
(the last token of the line) was present". -/
theorem claim_C4_counterexample :
    (getCommand false 7 "a & b").background = true ∧
    tokens "a & b" = ["a", "&", "b"] ∧
    ["a", "&", "b"].getLast? = some "b" ∧ some "b" ≠ some "&" := by
  decide

/-- Claim C4 (amended): the parsed command has background=true only if an
`&` token occurs somewhere in the line (not necessarily trailing) and
background execution is not disabled; an `&` in operator position while
backgrounding is disabled leaves the parse state entirely unchanged —
dropped silently, not recorded as an argument, not an error. -/
theorem claim_C4_amended :
    (∀ (pid : Nat) (line : String), (getCommand true pid line).background = false) ∧
    (∀ (pid : Nat) (st : ParseState),
      st.stopped = false → st.outRedirect = false → st.inRedirect = false →
      stepToken true pid st "&" = st) ∧
    (∀ (disabled : Bool) (pid : Nat) (line : String),
      (getCommand disabled pid line).background = true →
      disabled = false ∧ "&" ∈ tokens line) := by
  refine ⟨getCommand_background_of_disabled, ?_, ?_⟩
  · intro pid st hstop hout hin
    unfold stepToken
    rw [hstop, hout, hin]
    simp [isComment]
  · intro disabled pid line hbg
    constructor
    · cases hd : disabled
      · rfl
      · rw [hd] at hbg
        rw [getCommand_background_of_disabled] at hbg
        exact absurd hbg (by simp)
    · by_contra hmem
      have := foldl_background_of_not_mem disabled pid (tokens line) initParse hmem
      unfold getCommand at hbg
      rw [this] at hbg
      exact absurd hbg (by simp [initParse])

/-- Claim C4 witness: a disabled `&` is a no-op on the parse state, and on
`x &` with background enabled the amended theorem yields the `&` token's
presence. -/
theorem claim_C4_witness :
    stepToken true 3 initParse "&" = initParse ∧ (false = false ∧ "&" ∈ tokens "x &") :=
  ⟨claim_C4_amended.2.1 3 initParse rfl rfl rfl,
   claim_C4_amended.2.2 false 3 "x &" (by decide)⟩

/-! ## Claim C5 (corrected): only the first `$$` is replaced -/

theorem substFirst_append (pid : Nat) (pre post : List Char)
    (h : hasDD (pre ++ ['$']) = false) :
    substFirst pid (pre ++ '$' :: '$' :: post) = pre ++ (toString pid).data ++ post := by
  induction pre with
  | nil => simp [substFirst]
  | cons c pre2 ih =>
    cases pre2 with
    | nil =>
      have hc : (c == '$') = false := by
        simpa [hasDD] using h
      simp [substFirst, hc]
    | cons d pre3 =>
      simp only [List.cons_append, hasDD, Bool.or_eq_false_iff] at h
      have hrec := ih h.2
      simp only [List.cons_append] at hrec ⊢
      simp only [substFirst, h.1]
      rw [hrec]
      simp

/-- Claim C5 counterexample: parsing the line `$$$$` with shell pid 5
yields the argument `5$$` — only the FIRST occurrence of `$$` is replaced —
while replacing every occurrence (as the claim states) would give `55`. -/
theorem claim_C5_counterexample :
    (getCommand false 5 "$$$$").args = ["5$$"] ∧
    String.mk (substAllSpec 5 "$$$$".data) = "55" ∧
    ("5$$" : String) ≠ "55" := by
  decide

/-- Claim C5 (amended): for a token reaching the argument position and
containing `$$`, the parser replaces the FIRST occurrence of `$$` with the
decimal form of the shell's pid, preserving all surrounding characters
(later occurrences included), and appends the result as the next argument;
in particular `ls -la $$` parses to args `["ls", "-la", "<pid>"]` with no
redirection and background=false. -/
theorem claim_C5_amended :
    (∀ (pid : Nat) (pre post : List Char), hasDD (pre ++ ['$']) = false →
      substFirst pid (pre ++ '$' :: '$' :: post) = pre ++ (toString pid).data ++ post) ∧
    (∀ (disabled : Bool) (pid : Nat) (st : ParseState) (tok : String),
      st.stopped = false → st.outRedirect = false → st.inRedirect = false →
      isComment tok = false → (tok == "<") = false → (tok == ">") = false →
      (tok == "&") = false → hasDD tok.data = true →
      stepToken disabled pid st tok =
        { st with cmd :=
            { st.cmd with args := st.cmd.args ++ [String.mk (substFirst pid tok.data)] } }) ∧
    (∀ pid : Nat,
      getCommand false pid "ls -la $$" =
        { args := ["ls", "-la", toString pid], inputFile := none, outputFile := none,
          background := false }) := by
  refine ⟨substFirst_append, ?_, ?_⟩
  · intro disabled pid st tok hstop hout hin hc hlt hgt hamp hdd
    unfold stepToken
    rw [hstop, hout, hin, hc, hlt, hgt, hamp, hdd]
    simp
  · intro pid
    show (List.foldl (stepToken false pid) initParse (tokens "ls -la $$")).cmd =
      { args := ["ls", "-la", toString pid], inputFile := none, outputFile := none,
        background := false }
    have hfold : List.foldl (stepToken false pid) initParse (tokens "ls -la $$") =
        { cmd := { args := ["ls", "-la", String.mk ((toString pid).data ++ [])],
                   inputFile := none, outputFile := none, background := false },
          outRedirect := false, inRedirect := false, stopped := false } := rfl
    rw [hfold]
    simp

/-- Claim C5 witness: the amended first-occurrence law at pid 5 on the
token `a$$b$$`, and the `ls -la $$` example at pid 1234. -/
theorem claim_C5_witness :
    substFirst 5 ("a$$b$$".data) = "a5b$$".data ∧
    getCommand false 1234 "ls -la $$" =
      { args := ["ls", "-la", "1234"], inputFile := none, outputFile := none,
        background := false } :=
  ⟨claim_C5_amended.1 5 ['a'] ['b', '$', '$'] (by decide),
   claim_C5_amended.2.2 1234⟩


/-! ## Claim C1 (corrected): `status` does not reflect the signal number -/

/-- Claim C1 counterexample: a foreground command killed by signal 9 and
one killed by signal 15 leave identical shell states — the loop records
`WEXITSTATUS` of the raw status, which is 0 for every signal — so the
subsequent `status` line is `exit value 0` and cannot reflect N. -/
theorem claim_C1_counterexample :
    shellStep 1 initState "cmd" 42 (.signaled 9) =
      .next { initState with forePID := 42, exitStatus := 0 } [] ∧
    shellStep 1 initState "cmd" 42 (.signaled 15) =
      shellStep 1 initState "cmd" 42 (.signaled 9) ∧
    statusLine { initState with forePID := 42, exitStatus := 0 } = "exit value 0" ∧
    ("exit value 0" : String) ≠ "exit value 9" := by
  decide

/-- Claim C1 (amended): for a foreground command killed by termination
signal N, `waitpid` stores the raw status N mod 128 but `runCommand`
returns `WEXITSTATUS` of it, which is 0; the shell loop records that 0, so
a subsequent `status` prints `exit value 0` whatever N was.  The signal
number is not reflected; the 0/1-versus-signal classification exists only
in the background reaper's notifications. -/
theorem claim_C1_amended (st : ShellState) (cmd : Command) (spawnpid n : Nat)
    (hbg : cmd.background = false) :
    runCommand st cmd spawnpid (.signaled n) =
      some { state := { st with forePID := (spawnpid : Int), exitStatus := n % 128 }
             ret := 0
             output := []
             restoredStdin := cmd.inputFile.isSome
             restoredStdout := cmd.outputFile.isSome } ∧
    (∀ (shellPid : Nat) (st2 : ShellState) (sp : Nat) (r : ChildResult),
      st2.exitStatus = 0 →
      shellStep shellPid st2 "status" sp r = .next st2 ["exit value 0"]) := by
  constructor
  · have h0 : wExitStatus (n % 128) = 0 := by
      unfold wExitStatus
      have hlt : n % 128 < 256 := lt_trans (Nat.mod_lt _ (by norm_num)) (by norm_num)
      rw [Nat.div_eq_of_lt hlt]
    unfold runCommand
    rw [hbg]
    simp [encodeStatus, h0]
  · intro shellPid st2 sp r h0
    have hcmd : getCommand st2.backgroundDisabled shellPid "status" =
        { args := ["status"], inputFile := none, outputFile := none, background := false } := rfl
    unfold shellStep
    rw [hcmd]
    show StepResult.next st2 [statusLine st2] = StepResult.next st2 ["exit value 0"]
    rw [statusLine, h0]
    rfl

/-- Claim C1 amended witness: concrete foreground kill by signal 9 from the
initial state, then `status`. -/
theorem claim_C1_amended_witness :
    runCommand initState ⟨["cmd"], none, none, false⟩ 42 (.signaled 9) =
      some { state := { initState with forePID := 42, exitStatus := 9 },
             ret := 0, output := [], restoredStdin := false, restoredStdout := false } ∧
    shellStep 1 { initState with forePID := 42 } "status" 2 (.exited 0) =
      .next { initState with forePID := 42 } ["exit value 0"] :=
  ⟨(claim_C1_amended initState ⟨["cmd"], none, none, false⟩ 42 9 rfl).1,
   (claim_C1_amended initState ⟨["cmd"], none, none, false⟩ 42 9 rfl).2 1
     { initState with forePID := 42 } 2 (.exited 0) rfl⟩

/-! ## Claim C2 (corrected): the background return value is
`WEXITSTATUS(exitStatus)`, not always 0 -/

/-- Claim C2 counterexample: after the reaper records the raw status 1792
(a background child that exited with code 7), dispatching a background
command returns `WEXITSTATUS 1792 = 7`, not 0. -/
theorem claim_C2_counterexample :
    (childTerminates (fun p => if p == 100 then some (.exited 7) else none)
        ((saveProcess 100 emptyTable).getD []) 0).2.1 = 1792 ∧
    (runCommand { initState with exitStatus := 1792 }
        { args := ["x"], inputFile := none, outputFile := none, background := true }
        101 (.exited 0)).map RunResult.ret = some 7 ∧
    (7 : Nat) ≠ 0 := by
  decide

/-- Claim C2 (amended): a background dispatch registers the job in the
first free slot, reports its pid, and returns `WEXITSTATUS` of the shell's
CURRENT recorded status — 0 whenever that value is below 256 (so in
particular whenever the last update came from the shell loop itself), but
possibly nonzero right after the asynchronous reaper stored a raw
background status; and for every command, stdin (resp. stdout) is restored
from the saved duplicate exactly when an input (resp. output) file was
requested, in both the background and the foreground branch. -/
theorem claim_C2_amended :
    (∀ (st : ShellState) (cmd : Command) (spawnpid : Nat) (res : ChildResult)
        (table : List (Option JobRecord)),
      cmd.background = true → saveProcess spawnpid st.backProcs = some table →
      runCommand st cmd spawnpid res =
        some { state := { st with backProcs := table }
               ret := wExitStatus st.exitStatus
               output := ["background pid is " ++ toString spawnpid]
               restoredStdin := cmd.inputFile.isSome
               restoredStdout := cmd.outputFile.isSome }) ∧
    (∀ s : Nat, s < 256 → wExitStatus s = 0) ∧
    (∀ (st : ShellState) (cmd : Command) (spawnpid : Nat) (res : ChildResult) (r : RunResult),
      runCommand st cmd spawnpid res = some r →
      r.restoredStdin = cmd.inputFile.isSome ∧ r.restoredStdout = cmd.outputFile.isSome) := by
  refine ⟨?_, ?_, ?_⟩
  · intro st cmd spawnpid res table hbg hsave
    unfold runCommand
    rw [hbg, hsave]
    simp
  · intro s hs
    unfold wExitStatus
    rw [Nat.div_eq_of_lt hs]
  · intro st cmd spawnpid res r hr
    unfold runCommand at hr
    cases hbg : cmd.background
    · rw [hbg] at hr
      simp at hr
      rw [← hr]
      exact ⟨rfl, rfl⟩
    · rw [hbg] at hr
      simp at hr
      rcases hsave : saveProcess spawnpid st.backProcs with _ | table
      · rw [hsave] at hr
        simp at hr
      · rw [hsave] at hr
        simp at hr
        rw [← hr]
        exact ⟨rfl, rfl⟩


/-! ## Claim C3: job-table lifecycle lemmas -/

theorem saveProcess_set (p : Nat) (t t' : List (Option JobRecord))
    (h : saveProcess p t = some t') :
    ∃ j, t[j]? = some none ∧ t' = t.set j (some { backPID := p, active := true }) := by
  induction t generalizing t' with
  | nil => simp [saveProcess] at h
  | cons s rest ih =>
    cases s with
    | none =>
      simp [saveProcess] at h
      refine ⟨0, by simp, ?_⟩
      rw [← h]
      rfl
    | some r =>
      simp [saveProcess] at h
      rcases h with ⟨t2, h2, ht⟩
      rcases ih t2 h2 with ⟨j, hj, hset⟩
      refine ⟨j + 1, ?_, ?_⟩
      · simpa using hj
      · rw [← ht, hset]
        rfl

theorem saveProcess_length (p : Nat) (t t' : List (Option JobRecord))
    (h : saveProcess p t = some t') : t'.length = t.length := by
  rcases saveProcess_set p t t' h with ⟨j, _, hset⟩
  rw [hset, List.length_set]

theorem saveProcess_countNone (p : Nat) (t t' : List (Option JobRecord))
    (h : saveProcess p t = some t') : countNone t' + 1 = countNone t := by
  induction t generalizing t' with
  | nil => simp [saveProcess] at h
  | cons s rest ih =>
    cases s with
    | none =>
      simp [saveProcess] at h
      rw [← h]
      rfl
    | some r =>
      simp [saveProcess] at h
      rcases h with ⟨t2, h2, ht⟩
      rw [← ht]
      show countNone t2 + 1 = countNone rest
      exact ih t2 h2

theorem saveProcess_isSome (p : Nat) (t : List (Option JobRecord))
    (h : 0 < countNone t) : (saveProcess p t).isSome = true := by
  induction t with
  | nil => simp [countNone] at h
  | cons s rest ih =>
    cases s with
    | none => rfl
    | some r =>
      have hpos : 0 < countNone rest := h
      have hrec := ih hpos
      rcases hs : saveProcess p rest with _ | t2
      · rw [hs] at hrec
        simp at hrec
      · simp [saveProcess, hs]

theorem registerAll_spec (ps : List Nat) :
    ∀ t : List (Option JobRecord), ps.length ≤ countNone t →
      ∃ t', registerAll ps t = some t' ∧ countNone t' + ps.length = countNone t ∧
        t'.length = t.length := by
  induction ps with
  | nil =>
    intro t h
    exact ⟨t, rfl, by simp, rfl⟩
  | cons p ps ih =>
    intro t h
    simp only [List.length_cons] at h
    have hpos : 0 < countNone t := by omega
    rcases Option.isSome_iff_exists.mp (saveProcess_isSome p t hpos) with ⟨t1, h1⟩
    have hc1 : countNone t1 + 1 = countNone t := saveProcess_countNone p t t1 h1
    have hl1 : t1.length = t.length := saveProcess_length p t t1 h1
    have hle : ps.length ≤ countNone t1 := by omega
    rcases ih t1 hle with ⟨t', h2, hc2, hl2⟩
    refine ⟨t', ?_, by simp; omega, by omega⟩
    show (saveProcess p t).bind (registerAll ps) = some t'
    rw [h1]
    exact h2

theorem childTerminates_table (term : Nat → Option ChildResult)
    (t : List (Option JobRecord)) :
    ∀ s : Nat, (childTerminates term t s).1 = t.map (reapedSlot term) := by
  induction t with
  | nil => intro s; rfl
  | cons slot rest ih =>
    intro s
    cases slot with
    | none => simp [childTerminates, reapSlot, reapedSlot, ih]
    | some r =>
      cases hterm : term r.backPID with
      | none => simp [childTerminates, reapSlot, reapedSlot, hterm, ih]
      | some res => simp [childTerminates, reapSlot, reapedSlot, hterm, ih]

theorem childTerminates_lines (term : Nat → Option ChildResult)
    (t : List (Option JobRecord)) :
    ∀ s : Nat, (childTerminates term t s).2.2 = t.filterMap (notifOf term) := by
  induction t with
  | nil => intro s; rfl
  | cons slot rest ih =>
    intro s
    cases slot with
    | none => simp [childTerminates, reapSlot, notifOf, List.filterMap_cons, ih]
    | some r =>
      cases hterm : term r.backPID with
      | none => simp [childTerminates, reapSlot, notifOf, List.filterMap_cons, hterm, ih]
      | some res => simp [childTerminates, reapSlot, notifOf, List.filterMap_cons, hterm, ih]

theorem occupiedPids_length (t : List (Option JobRecord)) :
    (occupiedPids t).length + countNone t = t.length := by
  induction t with
  | nil => rfl
  | cons slot rest ih => cases slot <;> simp [occupiedPids, countNone, ih] <;> omega

theorem lines_length_of_total (term : Nat → Option ChildResult)
    (h : ∀ p, (term p).isSome = true) (t : List (Option JobRecord)) :
    (t.filterMap (notifOf term)).length = (occupiedPids t).length := by
  induction t with
  | nil => rfl
  | cons slot rest ih =>
    cases slot with
    | none => simpa [notifOf, occupiedPids, List.filterMap_cons] using ih
    | some r =>
      rcases Option.isSome_iff_exists.mp (h r.backPID) with ⟨res, hres⟩
      simp [notifOf, occupiedPids, hres, List.filterMap_cons, ih]

theorem map_reaped_total (term : Nat → Option ChildResult)
    (h : ∀ p, (term p).isSome = true) (t : List (Option JobRecord)) :
    t.map (reapedSlot term) = List.replicate t.length none := by
  induction t with
  | nil => rfl
  | cons slot rest ih =>
    cases slot with
    | none => simp [reapedSlot, ih, List.replicate_succ]
    | some r => simp [reapedSlot, h r.backPID, ih, List.replicate_succ]

/-- Claim C3: (1) `saveProcess` only ever fills a slot that was empty —
occupied slots are untouched, so no slot is double-booked; (2) one reaper
pass maps each slot through `reapedSlot`: occupied slots whose non-blocking
check reports termination become empty, still-running slots are left
unchanged; (3) the pass emits exactly the notifications `notifOf`, one line
per terminated occupied slot and none for the others; (4) each notification
is classified "terminated by signal" exactly when the captured status is
neither 0 nor 1 and "exit value" otherwise; (5) end to end, registering
K ≤ 50 background jobs from the empty table succeeds, and once every
process has terminated one reaper pass returns all 50 slots to empty,
emitting exactly K notification lines. -/
theorem claim_C3 :
    (∀ (p : Nat) (t t' : List (Option JobRecord)), saveProcess p t = some t' →
      ∃ j, t[j]? = some none ∧ t' = t.set j (some { backPID := p, active := true })) ∧
    (∀ (term : Nat → Option ChildResult) (t : List (Option JobRecord)) (s : Nat),
      (childTerminates term t s).1 = t.map (reapedSlot term)) ∧
    (∀ (term : Nat → Option ChildResult) (t : List (Option JobRecord)) (s : Nat),
      (childTerminates term t s).2.2 = t.filterMap (notifOf term)) ∧
    (∀ pid s : Nat,
      (s ≠ 0 ∧ s ≠ 1 → notifLine pid s =
        "background pid " ++ toString pid ++ " is done: terminated by signal " ++ toString s) ∧
      ((s = 0 ∨ s = 1) → notifLine pid s =
        "background pid " ++ toString pid ++ " is done: exit value " ++ toString s)) ∧
    (∀ (pids : List Nat) (term : Nat → Option ChildResult) (s : Nat),
      pids.length ≤ MAX_PROCS → (∀ p, (term p).isSome = true) →
      (registerAll pids emptyTable).isSome = true ∧
      (childTerminates term ((registerAll pids emptyTable).getD []) s).1 =
        List.replicate MAX_PROCS none ∧
      (childTerminates term ((registerAll pids emptyTable).getD []) s).2.2.length =
        pids.length) := by
  refine ⟨saveProcess_set, fun term t s => childTerminates_table term t s,
    fun term t s => childTerminates_lines term t s, ?_, ?_⟩
  · intro pid s
    constructor
    · intro h
      rw [notifLine, if_pos h]
    · intro h
      rw [notifLine, if_neg (by tauto)]
  · intro pids term s hK htot
    have hcN : countNone emptyTable = MAX_PROCS := by decide
    rcases registerAll_spec pids emptyTable (by rw [hcN]; exact hK) with ⟨t', hreg, hc, hl⟩
    have hlE : emptyTable.length = MAX_PROCS := by decide
    have hget : (registerAll pids emptyTable).getD [] = t' := by rw [hreg]; rfl
    refine ⟨by rw [hreg]; rfl, ?_, ?_⟩
    · rw [hget, childTerminates_table, map_reaped_total term htot, hl, hlE]
    · rw [hget, childTerminates_lines, lines_length_of_total term htot]
      have hocc := occupiedPids_length t'
      rw [hcN] at hc
      rw [hlE] at hl
      omega

/-- Claim C3 witness: two background jobs registered in the empty table,
both of which terminate; the reaper empties all 50 slots and prints exactly
two notification lines. -/
theorem claim_C3_witness :
    (registerAll [100, 101] emptyTable).isSome = true ∧
    (childTerminates (fun _ => some (ChildResult.exited 0))
        ((registerAll [100, 101] emptyTable).getD []) 0).1 =
      List.replicate MAX_PROCS none ∧
    (childTerminates (fun _ => some (ChildResult.exited 0))
        ((registerAll [100, 101] emptyTable).getD []) 0).2.2.length = 2 :=
  claim_C3.2.2.2.2 [100, 101] (fun _ => some (ChildResult.exited 0)) 0 (by decide)
    (fun _ => rfl)


/-- Claim C2 amended witness: a background dispatch from the initial state
(status 0) registers pid 100 in the first slot, announces it, and returns
0; `WEXITSTATUS` of any value below 256 is 0; and a foreground command with
an input file restores stdin but not stdout. -/
theorem claim_C2_amended_witness :
    runCommand initState ⟨["x"], none, none, true⟩ 100 (.exited 0) =
      some { state := { initState with
               backProcs := some ⟨100, true⟩ :: List.replicate 49 none },
             ret := 0,
             output := ["background pid is 100"],
             restoredStdin := false, restoredStdout := false } ∧
    wExitStatus 255 = 0 ∧
    (({ state := { initState with forePID := 5, exitStatus := 768 }, ret := 3,
        output := [], restoredStdin := true, restoredStdout := false } : RunResult).restoredStdin
        = true ∧
      ({ state := { initState with forePID := 5, exitStatus := 768 }, ret := 3,
         output := [], restoredStdin := true, restoredStdout := false } : RunResult).restoredStdout
        = false) :=
  ⟨claim_C2_amended.1 initState ⟨["x"], none, none, true⟩ 100 (.exited 0)
      (some ⟨100, true⟩ :: List.replicate 49 none) rfl (by decide),
   claim_C2_amended.2.1 255 (by decide),
   claim_C2_amended.2.2 initState ⟨["y"], some "in", none, false⟩ 5 (.exited 3)
      { state := { initState with forePID := 5, exitStatus := 768 }, ret := 3,
        output := [], restoredStdin := true, restoredStdout := false } (by decide)⟩

end Smallsh
